import Mathlib

/-!
Verification development for the act-parsing core of the TrueGen bot
(`app/parser.py`, `app/models.py`, `app/preview.py`).

Modelling conventions:
* Python strings are `String`/`List Char`; all string helpers are written
  structurally on `List Char` so that every definition reduces in the kernel.
* Python `float` values in this program are produced from decimal digit
  strings and combined by `+`, `*`, `round(_, 2)` and comparisons only, so
  they are modelled exactly as decimal numbers `Dec` (a natural mantissa with
  a power-of-ten denominator, normalised without gcd).  All numbers in the
  program are non-negative.  `round` is modelled as exact half-even decimal
  rounding (Python rounds the underlying binary double; the two agree on all
  values used in this development).
* The Python regexes are embedded as abstract syntax trees over a small
  backtracking matcher `reMatch` with Python semantics (leftmost preference,
  greedy/lazy repetition, ordered alternation, anchored `re.match`).
  Matching is driven by a fuel parameter large enough for the inputs used.
* `pydantic` validation of `ActItem` (`quantity > 0`, `price > 0`,
  `ValidationError` is a `ValueError` and is caught by `_parse_item`) is the
  guard in `mkActItem`.
-/

/-! ### Characters and Python-style string helpers -/

/-- ASCII decimal digit (regex `\d` on the inputs of this program). -/
def isDigitCh (c : Char) : Bool :=
  '0' ≤ c && c ≤ '9'

/-- Python whitespace (`str.split`, `str.strip`, regex `\s`), ASCII part. -/
def isPySpace (c : Char) : Bool :=
  c == ' ' || c == '\t' || c == '\n' || c == '\r' || c == '\x0b' || c == '\x0c'

/-- Python `str.lower` restricted to the alphabets appearing in the source:
ASCII letters, Cyrillic `А`-`Я` and `Ё`.  Other characters are unchanged. -/
def ruLower (c : Char) : Char :=
  if 'A' ≤ c && c ≤ 'Z' then Char.ofNat (c.toNat + 32)
  else if 'А' ≤ c && c ≤ 'Я' then Char.ofNat (c.toNat + 32)
  else if c == 'Ё' then 'ё'
  else c

/-- Lowercase a character list (Python `str.lower`). -/
def pyLowerL (s : List Char) : List Char :=
  s.map ruLower

/-- Lowercase a string (Python `str.lower`). -/
def ruLowerStr (s : String) : String :=
  String.mk (pyLowerL s.data)

/-- Drop the given characters from the right end. -/
def rstripCh (bad : Char → Bool) (s : List Char) : List Char :=
  (s.reverse.dropWhile bad).reverse

/-- Python `str.strip()` (whitespace on both ends). -/
def pyStrip (s : List Char) : List Char :=
  rstripCh isPySpace (s.dropWhile isPySpace)

/-- Python `str.strip(' ,')`. -/
def stripSpComma (s : List Char) : List Char :=
  rstripCh (fun c => c == ' ' || c == ',') (s.dropWhile (fun c => c == ' ' || c == ','))

/-- Python `str.split(sep)` for a single separator character. -/
def splitChar (sep : Char) : List Char → List (List Char)
  | [] => [[]]
  | c :: cs =>
    let r := splitChar sep cs
    if c == sep then [] :: r
    else
      match r with
      | h :: t => (c :: h) :: t
      | [] => [[c]]

/-- Words of Python `str.split()` (no argument: split on whitespace runs,
ignoring leading/trailing whitespace).  `cur` is the current word reversed. -/
def pyWordsGo (cur : List Char) : List Char → List (List Char)
  | [] => if cur.isEmpty then [] else [cur.reverse]
  | c :: cs =>
    if isPySpace c then
      if cur.isEmpty then pyWordsGo [] cs
      else cur.reverse :: pyWordsGo [] cs
    else pyWordsGo (c :: cur) cs

/-- Python `line.split()`. -/
def pyWords (s : List Char) : List (List Char) :=
  pyWordsGo [] s

/-- Join with single spaces. -/
def joinSp : List (List Char) → List Char
  | [] => []
  | [w] => w
  | w :: ws => w ++ ' ' :: joinSp ws

/-- Python `' '.join(line.split())` — whitespace normalisation in
`ActParser._parse_item`. -/
def normSpace (s : List Char) : List Char :=
  joinSp (pyWords s)

/-- Substring containment, Python `needle in hay` (exact characters). -/
def isPrefixCh : List Char → List Char → Bool
  | [], _ => true
  | _ :: _, [] => false
  | a :: as, b :: bs => a == b && isPrefixCh as bs

/-- Python `needle in hay`. -/
def containsSub (n : List Char) : List Char → Bool
  | [] => n.isEmpty
  | c :: t => isPrefixCh n (c :: t) || containsSub n t

/-- Match a lowercase needle case-insensitively at the head; on success
return the rest of the haystack. -/
def matchCI : List Char → List Char → Option (List Char)
  | [], s => some s
  | _ :: _, [] => none
  | a :: as, c :: cs => if ruLower c == a then matchCI as cs else none

/-- Fueled worker for `replaceCI`; the fuel is an upper bound on the number
of scanned positions, so `s.length + 1` always suffices for nonempty words. -/
def replaceCIgo (w repl : List Char) : Nat → List Char → List Char
  | 0, s => s
  | _ + 1, [] => []
  | fuel + 1, c :: cs =>
    match matchCI w (c :: cs) with
    | some rest => repl ++ replaceCIgo w repl fuel rest
    | none => c :: replaceCIgo w repl fuel cs

/-- Python `re.sub(re.escape(word), repl, text, flags=re.IGNORECASE)` for a
nonempty lowercase literal `word`: replace every (leftmost, non-overlapping)
case-insensitive occurrence. -/
def replaceCI (w repl s : List Char) : List Char :=
  replaceCIgo w repl (s.length + 1) s

/-- Digits to a natural number (digit characters only). -/
def natOfDigits (ds : List Char) : Nat :=
  ds.foldl (fun a c => a * 10 + (c.toNat - 48)) 0

/-- Decimal digit characters of `n` (most significant first). -/
def natDigits (n : Nat) : List Char :=
  Nat.toDigits 10 n

/-! ### Exact decimal arithmetic (model of the Python floats used here) -/

/-- An exact non-negative decimal number `num / 10 ^ exp`.  All numeric
values in the parser are produced from decimal literals and stay
non-negative, so this represents them exactly. -/
structure Dec where
  num : Nat
  exp : Nat
deriving DecidableEq, Repr

/-- Worker for `Dec.norm`, structurally recursive on the exponent. -/
def Dec.normGo : Nat → Nat → Dec
  | n, 0 => ⟨n, 0⟩
  | n, e + 1 =>
    if n % 10 == 0 then Dec.normGo (n / 10) e else ⟨n, e + 1⟩

/-- Canonical form: strip factors of ten shared by mantissa and exponent.
Two normalised `Dec`s are equal iff they denote the same rational. -/
def Dec.norm (a : Dec) : Dec :=
  Dec.normGo a.num a.exp

/-- Exact product. -/
def Dec.mul (a b : Dec) : Dec :=
  Dec.norm ⟨a.num * b.num, a.exp + b.exp⟩

/-- Exact sum. -/
def Dec.add (a b : Dec) : Dec :=
  let m := max a.exp b.exp
  Dec.norm ⟨a.num * 10 ^ (m - a.exp) + b.num * 10 ^ (m - b.exp), m⟩

/-- Value comparison `a < b`. -/
def Dec.blt (a b : Dec) : Bool :=
  a.num * 10 ^ b.exp < b.num * 10 ^ a.exp

/-- Absolute difference `|a - b|`. -/
def Dec.absDiff (a b : Dec) : Dec :=
  let x := a.num * 10 ^ b.exp
  let y := b.num * 10 ^ a.exp
  Dec.norm ⟨if x ≤ y then y - x else x - y, a.exp + b.exp⟩

/-- Positivity (`> 0`); a `Dec` is non-negative, so this is `num ≠ 0`. -/
def Dec.isPos (a : Dec) : Bool :=
  a.num != 0

/-- Python `round(x, 2)` on the decimals of this program: exact half-even
rounding to two decimal places. -/
def Dec.round2 (a : Dec) : Dec :=
  if a.exp ≤ 2 then Dec.norm a
  else
    let p := 10 ^ (a.exp - 2)
    let q := a.num / p
    let r := a.num % p
    let q2 :=
      if 2 * r < p then q
      else if p < 2 * r then q + 1
      else if q % 2 == 0 then q else q + 1
    Dec.norm ⟨q2, 2⟩

instance (n : Nat) : OfNat Dec n := ⟨⟨n, 0⟩⟩

/-- Python `float(s)` on the digit/dot strings produced by the item
patterns: an optional integer part, at most one dot, at least one digit,
no other characters.  Commas have already been replaced by dots. -/
def parseFloat (cs : List Char) : Option Dec :=
  match splitChar '.' cs with
  | [w] =>
    if !w.isEmpty && w.all isDigitCh then some (Dec.norm ⟨natOfDigits w, 0⟩) else none
  | [w, f] =>
    if !(w ++ f).isEmpty && (w ++ f).all isDigitCh then
      some (Dec.norm ⟨natOfDigits (w ++ f), f.length⟩)
    else none
  | _ => none

/-- Python `str.replace(',', '.')`. -/
def commaDot (s : List Char) : List Char :=
  s.map (fun c => if c == ',' then '.' else c)

/-! ### A small backtracking regex matcher with Python semantics -/

/-- Regex abstract syntax: character classes, sequencing, ordered
alternation, capturing groups, bounded greedy/lazy repetition and the `$`
anchor.  This is enough for the four patterns of `ActParser`. -/
inductive RE where
  | eps : RE
  | cls : (Char → Bool) → RE
  | seq : RE → RE → RE
  | alt : RE → RE → RE
  | grp : Nat → RE → RE
  | rep : Nat → Option Nat → Bool → RE → RE
  | eol : RE

/-- Captured groups: index paired with the captured characters. -/
abbrev Caps := List (Nat × List Char)

/-- Backtracking matcher in continuation-passing style.  `k` receives the
rest of the input and the captures.  Alternation prefers the left branch,
greedy repetition prefers one more iteration, lazy repetition prefers
stopping — exactly Python's leftmost backtracking search.  The fuel bounds
the recursion depth; `reFuel` below is ample for the regexes of the
parser, whose repeated subexpressions all consume at least one character. -/
def reMatch : Nat → RE → List Char → Caps → (List Char → Caps → Option Caps) → Option Caps
  | 0, _, _, _, _ => none
  | _ + 1, .eps, s, caps, k => k s caps
  | _ + 1, .eol, s, caps, k =>
    match s with
    | [] => k [] caps
    | _ :: _ => none
  | _ + 1, .cls p, s, caps, k =>
    match s with
    | [] => none
    | c :: cs => if p c then k cs caps else none
  | f + 1, .seq a b, s, caps, k =>
    reMatch f a s caps (fun s2 c2 => reMatch f b s2 c2 k)
  | f + 1, .alt a b, s, caps, k =>
    match reMatch f a s caps k with
    | some res => some res
    | none => reMatch f b s caps k
  | f + 1, .grp i r, s, caps, k =>
    reMatch f r s caps (fun s2 c2 => k s2 ((i, s.take (s.length - s2.length)) :: c2))
  | f + 1, .rep lo hi lz r, s, caps, k =>
    match lo with
    | l + 1 =>
      reMatch f r s caps (fun s2 c2 => reMatch f (.rep l (hi.map (· - 1)) lz r) s2 c2 k)
    | 0 =>
      match hi with
      | some 0 => k s caps
      | _ =>
        if lz then
          match k s caps with
          | some res => some res
          | none =>
            reMatch f r s caps (fun s2 c2 => reMatch f (.rep 0 (hi.map (· - 1)) lz r) s2 c2 k)
        else
          match reMatch f r s caps (fun s2 c2 => reMatch f (.rep 0 (hi.map (· - 1)) lz r) s2 c2 k) with
          | some res => some res
          | none => k s caps

/-- Fuel bound for `reMatch` on input `s`. -/
def reFuel (s : List Char) : Nat :=
  120 * s.length + 1200

/-- Python `pattern.match(s)`: anchored at the start, the rest of the input
need not be consumed.  Returns the captures of the first (leftmost) match. -/
def reMatchCaps (r : RE) (s : List Char) : Option Caps :=
  reMatch (reFuel s) r s [] (fun _ caps => some caps)

/-- Python `re.search`: try `match` at every start position, left to right. -/
def reSearchCaps (r : RE) : List Char → Option Caps
  | [] => reMatchCaps r []
  | c :: cs =>
    match reMatchCaps r (c :: cs) with
    | some caps => some caps
    | none => reSearchCaps r cs

/-- First captured value of group `i`. -/
def findCap (i : Nat) (caps : Caps) : Option (List Char) :=
  (caps.find? (fun p => p.1 == i)).map (fun p => p.2)

/-! #### Character classes and literals of the `ActParser` patterns -/

/-- Class `[а-яa-z.]` under `re.IGNORECASE` (note: `ё` is not in `а-я`). -/
def isUnitChar (c : Char) : Bool :=
  let n := (ruLower c).toNat
  (0x430 ≤ n && n ≤ 0x44F) || (97 ≤ n && n ≤ 122) || n == 46

/-- Regex `.` (any character except a newline). -/
def dotC : RE := .cls (fun c => c != '\n')

/-- Regex `\s`. -/
def wsC : RE := .cls isPySpace

/-- Regex `\d`. -/
def digC : RE := .cls isDigitCh

/-- Regex `[^\d]`. -/
def notDigC : RE := .cls (fun c => !isDigitCh c)

/-- Class `[xх]` (Latin and Cyrillic) under `re.IGNORECASE`. -/
def xCls : RE := .cls (fun c => c == 'x' || c == 'X' || c == 'х' || c == 'Х')

/-- Class `[×x*]` under `re.IGNORECASE`. -/
def sepCls : RE := .cls (fun c => c == '×' || c == 'x' || c == 'X' || c == '*')

/-- Class `[₽р]` under `re.IGNORECASE`. -/
def rubCls : RE := .cls (fun c => c == '₽' || c == 'р' || c == 'Р')

/-- Class `[.,]`. -/
def dotCommaC : RE := .cls (fun c => c == '.' || c == ',')

/-- Class `[./]`. -/
def dotSlashC : RE := .cls (fun c => c == '.' || c == '/')

/-- Greedy `r*`. -/
def star (r : RE) : RE := .rep 0 none false r

/-- Greedy `r+`. -/
def plus (r : RE) : RE := .rep 1 none false r

/-- Lazy `r+?`. -/
def lazyPlus (r : RE) : RE := .rep 1 none true r

/-- Greedy `r?`. -/
def opt (r : RE) : RE := .rep 0 (some 1) false r

/-- Literal character. -/
def chC (c : Char) : RE := .cls (fun d => d == c)

/-- Literal character under `re.IGNORECASE`. -/
def chCI (c : Char) : RE := .cls (fun d => ruLower d == ruLower c)

/-- Case-sensitive literal string. -/
def litS (s : String) : RE :=
  s.data.foldr (fun c acc => .seq (chC c) acc) .eps

/-- Literal string under `re.IGNORECASE`. -/
def litCIS (s : String) : RE :=
  s.data.foldr (fun c acc => .seq (chCI c) acc) .eps

/-- `ActParser.HEADER_PATTERN` date token
`\d{1,2}[./]\d{1,2}[./]\d{2,4}`. -/
def dateTokRE : RE :=
  .seq (.rep 1 (some 2) false digC)
    (.seq dotSlashC
      (.seq (.rep 1 (some 2) false digC)
        (.seq dotSlashC (.rep 2 (some 4) false digC))))

/-- `ActParser.HEADER_PATTERN`:
`#АКТ\s+(?P<date>\d{1,2}[./]\d{1,2}[./]\d{2,4})\s*\|\s*Объект:\s*(?P<object_name>.+)`
with `re.IGNORECASE`; group 1 is the date, group 2 the object name. -/
def headerRE : RE :=
  .seq (litCIS "#АКТ")
    (.seq (plus wsC)
      (.seq (.grp 1 dateTokRE)
        (.seq (star wsC)
          (.seq (chC '|')
            (.seq (star wsC)
              (.seq (litCIS "Объект:")
                (.seq (star wsC) (.grp 2 (plus dotC)))))))))

/-- `ActParser.ITEM_PATTERN`:
`(?P<name>.+?)\s+(?P<quantity>\d+(?:[.,]\d+)?(?:\s*[xх]\s*\d+)?)`
`(?:\s*(?P<unit>[а-яa-z.]+)(?:\s+[а-яa-z.]*)?)?\s*[×x*]\s*`
`(?P<price>\d+(?:[.,]\d+)?(?:\s*[₽р]?\s*[а-яa-z.]*)?)\s*(?:[₽р]|$)`
with `re.IGNORECASE | re.UNICODE`; groups 1-4 are name, quantity, unit,
price. -/
def itemRE : RE :=
  .seq (.grp 1 (lazyPlus dotC))
    (.seq (plus wsC)
      (.seq (.grp 2 (.seq (plus digC)
              (.seq (opt (.seq dotCommaC (plus digC)))
                (opt (.seq (star wsC) (.seq xCls (.seq (star wsC) (plus digC))))))))
        (.seq (opt (.seq (star wsC)
                (.seq (.grp 3 (plus (.cls isUnitChar)))
                  (opt (.seq (plus wsC) (star (.cls isUnitChar)))))))
          (.seq (star wsC)
            (.seq sepCls
              (.seq (star wsC)
                (.seq (.grp 4 (.seq (plus digC)
                        (.seq (opt (.seq dotCommaC (plus digC)))
                          (opt (.seq (star wsC)
                            (.seq (opt rubCls) (.seq (star wsC) (star (.cls isUnitChar)))))))))
                  (.seq (star wsC) (.alt rubCls .eol)))))))))

/-- The alternative pattern used (three times, identically) for the
quantity-first dialects in `_parse_item`:
`(?P<quantity>\d+)\s+(?P<name>[^\d]+)(?:по|:)\s*(?P<price>\d+)` with
`re.IGNORECASE`; groups 1-3 are quantity, name, price. -/
def altRE : RE :=
  .seq (.grp 1 (plus digC))
    (.seq (plus wsC)
      (.seq (.grp 2 (plus notDigC))
        (.seq (.alt (litCIS "по") (chC ':'))
          (.seq (star wsC) (.grp 3 (plus digC))))))

/-- The comma pattern of `_parse_item`:
`(?P<name>.+?)[,;]\s*(?P<quantity>\d+)\s+(?:модул|мод\.?|шт\.?)\s*(?:по|:)?\s*(?P<price>\d+)`
with `re.IGNORECASE`; groups 1-3 are name, quantity, price. -/
def alt3RE : RE :=
  .seq (.grp 1 (lazyPlus dotC))
    (.seq (.cls (fun c => c == ',' || c == ';'))
      (.seq (star wsC)
        (.seq (.grp 2 (plus digC))
          (.seq (plus wsC)
            (.seq (.alt (litCIS "модул")
                    (.alt (.seq (litCIS "мод") (opt (chC '.')))
                      (.seq (litCIS "шт") (opt (chC '.')))))
              (.seq (star wsC)
                (.seq (opt (.alt (litCIS "по") (chC ':')))
                  (.seq (star wsC) (.grp 3 (plus digC))))))))))

/-- The night-count search pattern `(\d+)\s+ноч` (no flags; `_parse_item`
applies it to the lowercased line via `re.search`). -/
def nightsRE : RE :=
  .seq (.grp 1 (plus digC)) (.seq (plus wsC) (litS "ноч"))

/-! ### Data model (`app/models.py`) -/

/-- A calendar date as produced by `datetime.strptime(...).date()`. -/
structure PyDate where
  year : Nat
  month : Nat
  day : Nat
deriving DecidableEq, Repr

/-- `ActItem` (name, quantity, unit, unit price).  The pydantic constraints
`quantity > 0`, `price > 0` are enforced at construction by `mkActItem`. -/
structure ActItem where
  name : String
  quantity : Dec
  unit : String
  price : Dec
deriving DecidableEq, Repr

/-- Construction of `ActItem(...)`: pydantic validates `quantity > 0` and
`price > 0` (`gt=0`); a `ValidationError` is a `ValueError`, which
`_parse_item` catches and turns into `None`. -/
def mkActItem (name : String) (quantity : Dec) (unit : String) (price : Dec) : Option ActItem :=
  if quantity.isPos && price.isPos then some ⟨name, quantity, unit, price⟩ else none

/-- `ActItem.total`: `round(self.quantity * self.price, 2)`. -/
def ActItem.total (i : ActItem) : Dec :=
  Dec.round2 (Dec.mul i.quantity i.price)

/-- `ActItem.__hash__` key: `(self.name.lower(), self.unit.lower(),
round(self.price, 2))`.  Distinct key tuples are modelled as distinct
hashes. -/
def hashKey (i : ActItem) : String × String × Dec :=
  (ruLowerStr i.name, ruLowerStr i.unit, Dec.round2 i.price)

/-- `ActItem.__eq__`: case-insensitive name and unit, price within an
absolute tolerance of `0.01`. -/
def itemBEq (a b : ActItem) : Bool :=
  ruLowerStr a.name == ruLowerStr b.name
    && ruLowerStr a.unit == ruLowerStr b.unit
    && Dec.blt (Dec.absDiff a.price b.price) ⟨1, 2⟩

/-- Membership test of a Python `set` for one stored element: the lookup
compares hashes first and calls `__eq__` only on a hash hit. -/
def dupB (y x : ActItem) : Bool :=
  decide (hashKey y = hashKey x) && itemBEq y x

/-- Python `x in seen` for the `set` of already kept items. -/
def inSeen (x : ActItem) (seen : List ActItem) : Bool :=
  seen.any (fun y => dupB y x)

/-- The deduplication of `parse_act`:
`[x for x in items if not (x in seen or seen.add(x))]` — keep the first
occurrence, drop later duplicates. -/
def dedupGo (seen : List ActItem) : List ActItem → List ActItem
  | [] => []
  | x :: xs => if inSeen x seen then dedupGo seen xs else x :: dedupGo (x :: seen) xs

/-- Deduplicate preserving order (first occurrence wins). -/
def dedupItems (items : List ActItem) : List ActItem :=
  dedupGo [] items

/-- `ActData`: date, object name and the ordered items. -/
structure ActData where
  date : PyDate
  object_name : String
  items : List ActItem
deriving DecidableEq, Repr

/-- `ActData.total`: `round(sum(item.total for item in self.items), 2)`,
`0.0` for no items. -/
def ActData.total (a : ActData) : Dec :=
  if a.items.isEmpty then ⟨0, 0⟩
  else Dec.round2 (a.items.foldl (fun acc i => Dec.add acc i.total) ⟨0, 0⟩)

/-- Error taxonomy of `parse_act` (`ValueError`s in the source, with the
message identifying the failure; `badDate` carries the offending token). -/
inductive ActError where
  | emptyAct : ActError
  | badHeader : ActError
  | badDate : String → ActError
  | noItems : ActError
deriving DecidableEq, Repr

/-! ### Text sanitizer (`clean_text` and `WORD_REPLACEMENTS`) -/

/-- `WORD_REPLACEMENTS` as the Python dict: keys in first-insertion order,
a repeated key keeps its last value (so `'выездных'` maps to
`'выездных бригадах'`). -/
def WORD_REPLACEMENTS : List (String × String) :=
  [("шлюх", "Девушки"),
   ("проститутк", "персонал"),
   ("кальян", "оборудование"),
   ("по 10ке", "по договорённости"),
   ("за ночь", "за смену"),
   ("за сутки", "за период"),
   ("три ночи", "три смены"),
   ("ночей", "смен"),
   ("ночь", "смена"),
   ("девушк", "ассистент"),
   ("девочк", "ассистент"),
   ("мальчик", "ассистент"),
   ("мальчиков", "ассистентов"),
   ("девушек", "ассистентов"),
   ("девочек", "ассистентов"),
   ("по вызову", "по заявке"),
   ("выезд", "визит"),
   ("выездная", "выездная бригада"),
   ("выездные", "выездные бригады"),
   ("выездного", "выездной бригады"),
   ("выездной", "выездной бригады"),
   ("выездную", "выездную бригаду"),
   ("выездными", "выездными бригадами"),
   ("выездных", "выездных бригадах"),
   ("выездным", "выездным бригадам")]

/-- `any(word in lower_text for word in WORD_REPLACEMENTS.keys())` applied
to the lowercased original text. -/
def hasBadWord (lower : List Char) : Bool :=
  WORD_REPLACEMENTS.any (fun wr => containsSub wr.1.data lower)

/-- `clean_text`: when some key occurs in the lowercased original, every
key that occurs in the lowercased original is substituted case-insensitively
in the running text, a final `.` is ensured and the annotation suffix is
appended.  Otherwise the text is returned unchanged. -/
def clean_text (text : String) : String :=
  let lower := pyLowerL text.data
  if hasBadWord lower then
    let t := WORD_REPLACEMENTS.foldl
      (fun t wr => if containsSub wr.1.data lower then replaceCI wr.1.data wr.2.data t else t)
      text.data
    let t := if (pyStrip t).getLastD ' ' == '.' then t else t ++ ['.']
    String.mk (t ++ " (названия скорректированы)".data)
  else text

/-! ### Date parsing (`datetime.strptime(date_str, '%d.%m.%Y').date()`) -/

/-- Gregorian leap year. -/
def isLeap (y : Nat) : Bool :=
  y % 4 == 0 && (y % 100 != 0 || y % 400 == 0)

/-- Days in a month (months 1-12). -/
def daysInMonth (y m : Nat) : Nat :=
  if m == 2 then (if isLeap y then 29 else 28)
  else if m == 4 || m == 6 || m == 9 || m == 11 then 30
  else 31

/-- CPython `strptime` token `%d`: regex `3[01]|[12]\d|0[1-9]|[1-9]`,
i.e. one or two digits with value 1-31. -/
def dayTokOK (ds : List Char) : Bool :=
  ds.all isDigitCh
    && (ds.length == 1 || ds.length == 2)
    && 1 ≤ natOfDigits ds && natOfDigits ds ≤ 31

/-- CPython `strptime` token `%m`: one or two digits with value 1-12. -/
def monTokOK (ms : List Char) : Bool :=
  ms.all isDigitCh
    && (ms.length == 1 || ms.length == 2)
    && 1 ≤ natOfDigits ms && natOfDigits ms ≤ 12

/-- `datetime.strptime(s, '%d.%m.%Y').date()`: the whole string must be
day `.` month `.` four-digit year (strptime rejects unconverted trailing
data), and the triple must be a valid calendar date (`datetime` requires
`1 <= year` and a day that exists in the month). -/
def strptimeDmy (s : List Char) : Option PyDate :=
  match splitChar '.' s with
  | [ds, ms, ys] =>
    if dayTokOK ds && monTokOK ms && (ys.length == 4 && ys.all isDigitCh) then
      let d := natOfDigits ds
      let m := natOfDigits ms
      let y := natOfDigits ys
      if 1 ≤ y && d ≤ daysInMonth y m then some ⟨y, m, d⟩ else none
    else none
  | _ => none

/-! ### Line item recognizer (`ActParser._parse_item`) -/

/-- `UNIT_ALIASES`. -/
def UNIT_ALIASES : List (String × String) :=
  [("шт", "шт."), ("штук", "шт."), ("м", "м"), ("метр", "м"),
   ("кг", "кг"), ("килограмм", "кг"), ("компл", "компл."), ("комплект", "компл.")]

/-- `UNIT_ALIASES.get(unit, unit)`. -/
def unitAlias (u : List Char) : List Char :=
  match UNIT_ALIASES.find? (fun p => p.1.data == u) with
  | some p => p.2.data
  | none => u

/-- Characters kept by `re.sub(r'[^0-9.,]', '', price_str)`. -/
def priceKeep (c : Char) : Bool :=
  isDigitCh c || c == '.' || c == ','

/-- Split at the first lowercase `x` or `х`,
Python `re.split(r'[xх]', s, maxsplit=1)` (the split pattern is compiled
without `re.IGNORECASE`). -/
def splitFirstXx : List Char → Option (List Char × List Char)
  | [] => none
  | c :: cs =>
    if c == 'x' || c == 'х' then some ([], cs)
    else
      match splitFirstXx cs with
      | some (a, b) => some (c :: a, b)
      | none => none

/-- The quantity conversion of the canonical branch: if the captured
quantity contains a (lowercase) `x`/`х`, split once and multiply the two
stripped comma-normalised floats, else convert the whole token. -/
def parseQty (qs : List Char) : Option Dec :=
  if qs.contains 'x' || qs.contains 'х' then
    match splitFirstXx qs with
    | some (a, b) => do
      let qa ← parseFloat (commaDot (pyStrip a))
      let qb ← parseFloat (commaDot (pyStrip b))
      some (Dec.mul qa qb)
    | none => parseFloat (commaDot qs)
  else parseFloat (commaDot qs)

/-- Run `ActParser.ITEM_PATTERN` and extract the four captures. -/
def itemCaps (line : List Char) : Option (List Char × List Char × Option (List Char) × List Char) :=
  match reMatchCaps itemRE line with
  | none => none
  | some caps =>
    match findCap 1 caps, findCap 2 caps, findCap 4 caps with
    | some n, some q, some p => some (n, q, findCap 3 caps, p)
    | _, _, _ => none

/-- Run the shared alternative pattern and extract quantity, name, price. -/
def altCaps (line : List Char) : Option (List Char × List Char × List Char) :=
  match reMatchCaps altRE line with
  | none => none
  | some caps =>
    match findCap 1 caps, findCap 2 caps, findCap 3 caps with
    | some q, some n, some p => some (q, n, p)
    | _, _, _ => none

/-- Run the comma pattern and extract name, quantity, price. -/
def alt3Caps (line : List Char) : Option (List Char × List Char × List Char) :=
  match reMatchCaps alt3RE line with
  | none => none
  | some caps =>
    match findCap 1 caps, findCap 2 caps, findCap 3 caps with
    | some n, some q, some p => some (n, q, p)
    | _, _, _ => none

/-- Canonical branch of `_parse_item` after a successful
`ITEM_PATTERN.match`: strip the name, default and lowercase the unit,
strip non-numeric characters from the price, convert quantity and price
(a `ValueError` anywhere gives `None`), normalise the unit through
`UNIT_ALIASES` and validate the `ActItem`. -/
def canonicalBuild (nameC qtyC : List Char) (unitO : Option (List Char))
    (priceC : List Char) : Option ActItem :=
  (parseQty qtyC).bind fun quantity =>
  (parseFloat (commaDot (priceC.filter priceKeep))).bind fun price =>
  mkActItem (String.mk (pyStrip (pyStrip nameC)))
    quantity
    (String.mk (unitAlias (pyLowerL (unitO.getD "шт.".data))))
    price

/-- The quantity-first branches (`"3 кальяна по 1224"` and
`"7 камер по 2000р"`): unit is fixed to `шт.`, name stripped of spaces and
commas. -/
def altBuild (qtyC nameC priceC : List Char) : Option ActItem :=
  (parseFloat qtyC).bind fun quantity =>
  (parseFloat priceC).bind fun price =>
  mkActItem (String.mk (stripSpComma nameC)) quantity "шт." price

/-- The night-count branch: same as `altBuild` but when the line mentions
`ноч` and `re.search(r'(\d+)\s+ноч', line.lower())` finds a count, the
price is multiplied by that count. -/
def nightsBuild (line qtyC nameC priceC : List Char) : Option ActItem :=
  (parseFloat qtyC).bind fun quantity =>
  (parseFloat priceC).bind fun price0 =>
  (if containsSub "ноч".data (pyLowerL line) then
      match reSearchCaps nightsRE (pyLowerL line) with
      | some caps =>
        match findCap 1 caps with
        | some nC => (parseFloat nC).map fun n => Dec.mul price0 n
        | none => some price0
      | none => some price0
    else some price0).bind fun price =>
  mkActItem (String.mk (stripSpComma nameC)) quantity "шт." price

/-- The comma branch (`"стойка слабаточная, 18 модулей по 1000р"`): unit is
fixed to `мод.`. -/
def alt3Build (nameC qtyC priceC : List Char) : Option ActItem :=
  (parseFloat qtyC).bind fun quantity =>
  (parseFloat priceC).bind fun price =>
  mkActItem (String.mk (pyStrip nameC)) quantity "мод." price

/-- `ActParser._parse_item`: normalise whitespace, try `ITEM_PATTERN`, then
the alternative formats in source order.  The second and fourth alternative
branches re-match the very same pattern as the first, so they are reached
only when it failed — which is why the night-count multiplication can never
fire. -/
def parseItemL (line0 : List Char) : Option ActItem :=
  let line := normSpace line0
  match itemCaps line with
  | some (n, q, u, p) => canonicalBuild n q u p
  | none =>
    match altCaps line with
    | some (q, n, p) => altBuild q n p
    | none =>
      match altCaps line with
      | some (q, n, p) => nightsBuild line q n p
      | none =>
        match alt3Caps line with
        | some (n, q, p) => alt3Build n q p
        | none =>
          match altCaps line with
          | some (q, n, p) => altBuild q n p
          | none => none

/-- `ActParser._parse_item` on a string. -/
def parseItem (line : String) : Option ActItem :=
  parseItemL line.data

/-! ### Act assembler (`ActParser.parse_act`) -/

/-- Run `HEADER_PATTERN.match` on the first line; captures are the date
token and the raw object name. -/
def headerCaps (line : List Char) : Option (List Char × List Char) :=
  match reMatchCaps headerRE line with
  | none => none
  | some caps =>
    match findCap 1 caps, findCap 2 caps with
    | some d, some o => some (d, o)
    | _, _ => none

/-- Split the cleaned text into stripped non-blank lines. -/
def linesOf (s : String) : List (List Char) :=
  ((splitChar '\n' s.data).map pyStrip).filter (fun l => !l.isEmpty)

/-- The item-collection loop of `parse_act`: skip blank lines and comment
lines starting with `#`, parse the rest, drop the failures. -/
def collectItems (rest : List (List Char)) : List ActItem :=
  rest.filterMap (fun l => if l.isEmpty || l.headD ' ' == '#' then none else parseItemL l)

/-- `ActParser.parse_act`: sanitize, split into non-blank stripped lines
(`Пустой акт` if none), match the header (`Неверный формат заголовка` on
failure), sanitize the stripped object name, parse the date strictly
(`Неверный формат даты: <token>` on failure), collect and deduplicate the
items (`Не найдено ни одной позиции в акте` if none remain) and build the
`ActData`.  Cleaning the object name is pure, so performing it in the final
branch is equivalent to the source's ordering. -/
def parse_act (text : String) : Except ActError ActData :=
  match linesOf (clean_text text) with
  | [] => .error .emptyAct
  | first :: rest =>
    match headerCaps first with
    | none => .error .badHeader
    | some (dateS, objRaw) =>
      match strptimeDmy dateS with
      | none => .error (.badDate (String.mk dateS))
      | some d =>
        match dedupItems (collectItems rest) with
        | [] => .error .noItems
        | i :: is => .ok ⟨d, clean_text (String.mk (pyStrip objRaw)), i :: is⟩

/-! ### Canonical serialization (`app/preview.py`) -/

/-- Two decimal digits with a leading zero (`%02d`). -/
def pad2 (n : Nat) : List Char :=
  if n < 10 then '0' :: natDigits n else natDigits n

/-- Four digits with leading zeros (`%Y` for the years accepted here). -/
def pad4 (n : Nat) : List Char :=
  if n < 10 then '0' :: '0' :: '0' :: natDigits n
  else if n < 100 then '0' :: '0' :: natDigits n
  else if n < 1000 then '0' :: natDigits n
  else natDigits n

/-- `date.strftime('%d.%m.%Y')`. -/
def strftimeDmY (d : PyDate) : List Char :=
  pad2 d.day ++ '.' :: pad2 d.month ++ '.' :: pad4 d.year

/-- Insert a space after every third digit, counting emitted digits from
the right; works on the reversed digit list. -/
def groupRev (k : Nat) : List Char → List Char
  | [] => []
  | c :: cs =>
    if k != 0 && k % 3 == 0 then ' ' :: c :: groupRev (k + 1) cs
    else c :: groupRev (k + 1) cs

/-- `_format_number`: format with two decimals and space-separated
thousands grouping (`"{0:,.2f}".format(value).replace(",", " ")`), then
strip trailing zeros and the trailing dot. -/
def formatNumber (a : Dec) : List Char :=
  let r := Dec.round2 a
  let n100 := r.num * 10 ^ (2 - r.exp)
  let ip := n100 / 100
  let fr := n100 % 100
  let s := (groupRev 0 (natDigits ip).reverse).reverse ++ '.' :: pad2 fr
  if s.contains '.' then rstripCh (fun c => c == '.') (rstripCh (fun c => c == '0') s)
  else s

/-- `format_act_as_text`: the canonical re-parseable serialization — a
header line and one `<name> <qty> <unit> × <price>₽` line per item. -/
def format_act_as_text (a : ActData) : String :=
  String.mk
    (("#АКТ ".data ++ strftimeDmY a.date ++ " | Объект: ".data ++ a.object_name.data)
      ++ a.items.foldl
          (fun acc i =>
            acc ++ '\n' :: (i.name.data ++ ' ' :: formatNumber i.quantity
              ++ ' ' :: i.unit.data ++ " × ".data ++ formatNumber i.price ++ ['₽']))
          [])

/-! ### Concrete acts and records used in the claims -/

/-- The three-line act of the concrete end-to-end scenario. -/
def scenarioAct : String :=
  "#АКТ 12.05.2024 | Объект: Офис на Невском проспекте\nУслуги по уборке 1 кв.м. × 1500\nМытье окон 3 шт. × 500"

/-- The record the scenario parses to. -/
def scenarioRec : ActData :=
  ⟨⟨2024, 5, 12⟩, "Офис на Невском проспекте",
   [⟨"Услуги по уборке", ⟨1, 0⟩, "кв.м.", ⟨1500, 0⟩⟩,
    ⟨"Мытье окон", ⟨3, 0⟩, "шт.", ⟨500, 0⟩⟩]⟩

/-- What `parse_act` returns on the canonical rendering of `scenarioRec`:
the line whose price is rendered with a grouping space is dropped. -/
def scenarioReduced : ActData :=
  ⟨⟨2024, 5, 12⟩, "Офис на Невском проспекте",
   [⟨"Мытье окон", ⟨3, 0⟩, "шт.", ⟨500, 0⟩⟩]⟩

/-- An act whose rendered quantities and prices all stay below 1000, so no
thousands-grouping space appears in the canonical form. -/
def smallAct : String :=
  "#АКТ 31.12.2024 | Объект: Склад №7\nПокраска стен 12.5 м × 999\nВывоз мусора 3 шт. × 120.5₽"

/-- The record `smallAct` parses to. -/
def smallRec : ActData :=
  ⟨⟨2024, 12, 31⟩, "Склад №7",
   [⟨"Покраска стен", ⟨125, 1⟩, "м", ⟨999, 0⟩⟩,
    ⟨"Вывоз мусора", ⟨3, 0⟩, "шт.", ⟨1205, 1⟩⟩]⟩

/-! ### Claim theorems -/

/-- C1 (counterexample): the round trip is not a fixed point.  The scenario
act parses to a two-item record, but `format_act_as_text` renders the price
1500 as `1 500` (thousands grouping with a space), `ITEM_PATTERN` rejects
that line, and re-parsing returns a record with only one item. -/
theorem roundtrip_grouping_counterexample :
    parse_act scenarioAct = .ok scenarioRec
      ∧ format_act_as_text scenarioRec
          = "#АКТ 12.05.2024 | Объект: Офис на Невском проспекте\nУслуги по уборке 1 кв.м. × 1 500₽\nМытье окон 3 шт. × 500₽"
      ∧ parse_act (format_act_as_text scenarioRec) = .ok scenarioReduced
      ∧ scenarioReduced ≠ scenarioRec :=
  ⟨rfl, rfl, rfl, by decide⟩

/-- C1 (amended): the round trip is a fixed point exactly on the records
whose canonical rendering passes back through the pipeline stages
unchanged: the sanitizer leaves the rendered text as it is, the first
rendered line re-matches the header with a date token that strictly
re-parses to the record's date and an object name that sanitizes back to
the record's object name, every remaining rendered line re-parses to its
original item, and the items are duplicate-free and non-empty.  It fails in
general: thousands-grouped numbers break the item stage (see the
counterexample), and a replacement name such as `Девушки` breaks the
sanitizer stage. -/
theorem roundtrip_fixed_point_of_stage_stability
    (R : ActData) (h1 : List Char) (rest : List (List Char)) (dateS objRaw : List Char)
    (hclean : clean_text (format_act_as_text R) = format_act_as_text R)
    (hl : linesOf (format_act_as_text R) = h1 :: rest)
    (hh : headerCaps h1 = some (dateS, objRaw))
    (hdate : strptimeDmy dateS = some R.date)
    (hobj : clean_text (String.mk (pyStrip objRaw)) = R.object_name)
    (hitems : collectItems rest = R.items)
    (hdedup : dedupItems R.items = R.items)
    (hne : R.items ≠ []) :
    parse_act (format_act_as_text R) = .ok R := by
  unfold parse_act
  rw [hclean, hl]
  simp only [hh, hdate, hitems, hdedup, hobj]
  cases heq : R.items with
  | nil => exact absurd heq hne
  | cons i is =>
    simp only [heq]
    rw [← heq]

/-- Witness for `roundtrip_fixed_point_of_stage_stability`: a two-item act
with decimal quantities, unit synonyms and a currency sign, all rendered
numbers below 1000 and all names sanitizer-stable.  The second conjunct is
the round trip itself, obtained from the theorem. -/
theorem roundtrip_fixed_point_of_stage_stability_witness :
    parse_act smallAct = .ok smallRec
      ∧ parse_act (format_act_as_text smallRec) = .ok smallRec :=
  ⟨rfl,
   roundtrip_fixed_point_of_stage_stability smallRec
     "#АКТ 31.12.2024 | Объект: Склад №7".data
     ["Покраска стен 12.5 м × 999₽".data, "Вывоз мусора 3 шт. × 120.5₽".data]
     "31.12.2024".data "Склад №7".data
     rfl rfl rfl rfl rfl rfl rfl (by decide)⟩

/-- C2 (counterexample): the sanitizer is not idempotent.  `clean_text`
maps `шлюх` to `Девушки`, which itself contains the disallowed key
`девушк`, so a second pass substitutes again and re-appends the annotation
suffix. -/
theorem sanitize_not_idempotent_counterexample :
    clean_text (clean_text "шлюх") ≠ clean_text "шлюх" := by
  decide

/-- C3: the concrete scenario parses to date 2024-05-12, the given object
name, exactly the two items in order, and the derived total 3000. -/
theorem concrete_scenario_parse :
    parse_act scenarioAct = .ok scenarioRec ∧ ActData.total scenarioRec = ⟨3000, 0⟩ :=
  ⟨rfl, rfl⟩

/-- C4 (code bug): on the quantity-first line `3 услуги по 1000, 2 ночи`
(unchanged by the sanitizer) the parser returns the base price 1000 — not
1000 × 2 — because the night-multiplier branch repeats the exact regex of
the branch before it and therefore never fires. -/
theorem nights_multiplier_dead_eval :
    clean_text "3 услуги по 1000, 2 ночи" = "3 услуги по 1000, 2 ночи"
      ∧ parseItem "3 услуги по 1000, 2 ночи"
          = some ⟨"услуги", ⟨3, 0⟩, "шт.", ⟨1000, 0⟩⟩
      ∧ (⟨1000, 0⟩ : Dec) ≠ Dec.mul ⟨1000, 0⟩ ⟨2, 0⟩ :=
  ⟨rfl, rfl, by decide⟩

/-- C8 (counterexample): the quantity-first pattern can produce an item
whose name strips to the empty string: on `3 ,по 5` the name capture is
`,`, and `strip(' ,')` erases it. -/
theorem item_empty_name_counterexample :
    parseItem "3 ,по 5" = some ⟨"", ⟨3, 0⟩, "шт.", ⟨5, 0⟩⟩ :=
  rfl

/-- C9: the canonical pattern parses `Item 3 x 100 × 50` with the inline
multiplier: quantity 3 × 100 = 300, name `Item`, price 50. -/
theorem inline_multiplier_quantity :
    parseItem "Item 3 x 100 × 50" = some ⟨"Item", ⟨300, 0⟩, "шт.", ⟨50, 0⟩⟩ :=
  rfl

/-! ### Helper lemmas -/

/-- Normalising a zero mantissa gives the canonical zero. -/
theorem normGo_zero (e : Nat) : Dec.normGo 0 e = ⟨0, 0⟩ := by
  induction e with
  | zero => rfl
  | succ e ih => simp [Dec.normGo, ih]

/-- The absolute difference of a value with itself is zero. -/
theorem absDiff_self (x : Dec) : Dec.absDiff x x = ⟨0, 0⟩ := by
  unfold Dec.absDiff
  simp [Dec.norm, normGo_zero]

/-- Every `ActItem` accepted by the pydantic constructor has positive
quantity and price. -/
theorem mkActItem_pos {n u : String} {q p : Dec} {i : ActItem}
    (h : mkActItem n q u p = some i) : 0 < i.quantity.num ∧ 0 < i.price.num := by
  unfold mkActItem at h
  split at h
  case isTrue hc =>
    rw [Bool.and_eq_true] at hc
    obtain ⟨hq, hp⟩ := hc
    cases h
    refine ⟨Nat.pos_of_ne_zero ?_, Nat.pos_of_ne_zero ?_⟩
    · simpa [Dec.isPos] using hq
    · simpa [Dec.isPos] using hp
  case isFalse => cases h

/-- The canonical branch only returns validated items. -/
theorem canonicalBuild_pos {nameC qtyC priceC : List Char} {unitO : Option (List Char)}
    {i : ActItem} (h : canonicalBuild nameC qtyC unitO priceC = some i) :
    0 < i.quantity.num ∧ 0 < i.price.num := by
  unfold canonicalBuild at h
  simp only [Option.bind_eq_some] at h
  obtain ⟨q, _, p, _, hmk⟩ := h
  exact mkActItem_pos hmk

/-- The quantity-first branches only return validated items. -/
theorem altBuild_pos {qtyC nameC priceC : List Char} {i : ActItem}
    (h : altBuild qtyC nameC priceC = some i) :
    0 < i.quantity.num ∧ 0 < i.price.num := by
  unfold altBuild at h
  simp only [Option.bind_eq_some] at h
  obtain ⟨q, _, p, _, hmk⟩ := h
  exact mkActItem_pos hmk

/-- The night-count branch only returns validated items. -/
theorem nightsBuild_pos {line qtyC nameC priceC : List Char} {i : ActItem}
    (h : nightsBuild line qtyC nameC priceC = some i) :
    0 < i.quantity.num ∧ 0 < i.price.num := by
  unfold nightsBuild at h
  simp only [Option.bind_eq_some] at h
  obtain ⟨q, _, p, _, p2, _, hmk⟩ := h
  exact mkActItem_pos hmk

/-- The comma branch only returns validated items. -/
theorem alt3Build_pos {nameC qtyC priceC : List Char} {i : ActItem}
    (h : alt3Build nameC qtyC priceC = some i) :
    0 < i.quantity.num ∧ 0 < i.price.num := by
  unfold alt3Build at h
  simp only [Option.bind_eq_some] at h
  obtain ⟨q, _, p, _, hmk⟩ := h
  exact mkActItem_pos hmk

/-- Two items with equal lowercased names and units and exactly equal
prices are duplicates for both the hash and the tolerance equality, so
deduplication of such a pair keeps only the first. -/
theorem dedup_pair {i1 i2 : ActItem}
    (hn : ruLowerStr i1.name = ruLowerStr i2.name)
    (hu : ruLowerStr i1.unit = ruLowerStr i2.unit)
    (hp : i1.price = i2.price) :
    dedupItems [i1, i2] = [i1] := by
  have hdup : dupB i1 i2 = true := by
    have hk : hashKey i1 = hashKey i2 := by
      unfold hashKey
      rw [hn, hu, hp]
    have he : itemBEq i1 i2 = true := by
      unfold itemBEq
      rw [hn, hu, hp, absDiff_self]
      simp [Dec.blt]
    simp [dupB, hk, he]
  simp [dedupItems, dedupGo, inSeen, hdup]

/-- Deduplication keeps the head of a fresh list. -/
theorem dedupGo_nil_cons (i : ActItem) (is : List ActItem) :
    dedupGo [] (i :: is) = i :: dedupGo [i] is := by
  simp [dedupGo, inSeen]

/-- C2 (amended): the sanitizer is the identity — hence idempotent — on any
input containing no disallowed substring; idempotence fails in general
because a replacement can itself contain a disallowed substring (see the
counterexample). -/
theorem sanitize_identity_on_clean_input (x : String)
    (h : hasBadWord (pyLowerL x.data) = false) :
    clean_text x = x ∧ clean_text (clean_text x) = clean_text x := by
  have h1 : clean_text x = x := by
    unfold clean_text
    simp [h]
  exact ⟨h1, by rw [h1]; exact h1⟩

/-- Witness for `sanitize_identity_on_clean_input` at a concrete string. -/
theorem sanitize_identity_on_clean_input_witness :
    hasBadWord (pyLowerL "привет мир".data) = false ∧ clean_text "привет мир" = "привет мир" :=
  ⟨by decide, (sanitize_identity_on_clean_input "привет мир" (by decide)).1⟩

/-- C5: whenever the first line of the cleaned text is a well-formed header
and the two remaining lines parse to items identical in lowercased name,
lowercased unit and price but (possibly) different quantities, `parse_act`
returns exactly the first item at its original position; the later
duplicate is dropped, not aggregated. -/
theorem dedup_keeps_first_occurrence
    (T : String) (h1 l1 l2 dateS objRaw : List Char) (d : PyDate) (i1 i2 : ActItem)
    (hl : linesOf (clean_text T) = [h1, l1, l2])
    (hh : headerCaps h1 = some (dateS, objRaw))
    (hd : strptimeDmy dateS = some d)
    (hi : collectItems [l1, l2] = [i1, i2])
    (hn : ruLowerStr i1.name = ruLowerStr i2.name)
    (hu : ruLowerStr i1.unit = ruLowerStr i2.unit)
    (hp : i1.price = i2.price)
    (_hq : i1.quantity ≠ i2.quantity) :
    parse_act T = .ok ⟨d, clean_text (String.mk (pyStrip objRaw)), [i1]⟩ := by
  unfold parse_act
  rw [hl]
  simp only [hh, hd, hi, dedup_pair hn hu hp]

/-- Witness for `dedup_keeps_first_occurrence`: the duplicate line with
quantity 5 is dropped and the quantity-2 original kept. -/
theorem dedup_keeps_first_occurrence_witness :
    parse_act "#АКТ 01.02.2024 | Объект: База\nРабота 2 шт. × 100\nРабота 5 шт. × 100"
      = .ok ⟨⟨2024, 2, 1⟩, "База", [⟨"Работа", ⟨2, 0⟩, "шт.", ⟨100, 0⟩⟩]⟩ :=
  dedup_keeps_first_occurrence
    "#АКТ 01.02.2024 | Объект: База\nРабота 2 шт. × 100\nРабота 5 шт. × 100"
    "#АКТ 01.02.2024 | Объект: База".data "Работа 2 шт. × 100".data "Работа 5 шт. × 100".data
    "01.02.2024".data "База".data ⟨2024, 2, 1⟩
    ⟨"Работа", ⟨2, 0⟩, "шт.", ⟨100, 0⟩⟩ ⟨"Работа", ⟨5, 0⟩, "шт.", ⟨100, 0⟩⟩
    rfl rfl rfl rfl rfl rfl rfl (by decide)

/-- C6: when the first line matches the header template, `parse_act` fails
with the format error naming the date token exactly when the token does not
parse strictly as `day.month.year` with a four-digit year — `/`-separated
dates and 2- or 3-digit years, which the header pattern itself admits, are
rejected here. -/
theorem strict_date_parsing
    (T : String) (h1 : List Char) (rest : List (List Char)) (dateS objRaw : List Char)
    (hl : linesOf (clean_text T) = h1 :: rest)
    (hh : headerCaps h1 = some (dateS, objRaw)) :
    parse_act T = .error (.badDate (String.mk dateS)) ↔ strptimeDmy dateS = none := by
  unfold parse_act
  rw [hl]
  simp only [hh]
  cases hd : strptimeDmy dateS with
  | none => simp
  | some d =>
    simp only []
    constructor
    · intro hcontra
      cases hdd : dedupItems (collectItems rest) with
      | nil => rw [hdd] at hcontra; cases hcontra
      | cons j js => rw [hdd] at hcontra; cases hcontra
    · intro hno
      cases hno

/-- Witness for `strict_date_parsing`: a slash-separated date passes the
header pattern but is rejected by the strict date parse. -/
theorem strict_date_parsing_witness :
    parse_act "#АКТ 12/05/2024 | Объект: Тест\nУслуга 1 × 2" = .error (.badDate "12/05/2024") :=
  (strict_date_parsing "#АКТ 12/05/2024 | Объект: Тест\nУслуга 1 × 2"
    "#АКТ 12/05/2024 | Объект: Тест".data ["Услуга 1 × 2".data]
    "12/05/2024".data "Тест".data rfl rfl).mpr rfl

/-- C7: `parse_act` fails with the empty-act error both when the sanitized
input has zero non-blank lines and when the header (and date) parse but no
item line is recognized; with at least one recognized item it never fails
with either empty-act error. -/
theorem empty_act_rejection (T : String) :
    (linesOf (clean_text T) = [] → parse_act T = .error .emptyAct)
    ∧ (∀ h1 rest dateS objRaw d,
        linesOf (clean_text T) = h1 :: rest → headerCaps h1 = some (dateS, objRaw) →
        strptimeDmy dateS = some d → collectItems rest = [] →
        parse_act T = .error .noItems)
    ∧ (∀ h1 rest dateS objRaw d i is,
        linesOf (clean_text T) = h1 :: rest → headerCaps h1 = some (dateS, objRaw) →
        strptimeDmy dateS = some d → collectItems rest = i :: is →
        parse_act T ≠ .error .emptyAct ∧ parse_act T ≠ .error .noItems) := by
  refine ⟨?_, ?_, ?_⟩
  · intro hl
    unfold parse_act
    rw [hl]
  · intro h1 rest dateS objRaw d hl hh hd hi
    unfold parse_act
    rw [hl]
    simp only [hh, hd, hi]
    rfl
  · intro h1 rest dateS objRaw d i is hl hh hd hi
    unfold parse_act
    rw [hl]
    simp only [hh, hd, hi, dedupGo_nil_cons]
    constructor <;> intro hcontra <;> cases hcontra

/-- Witness for `empty_act_rejection`: whitespace-only input, a valid
header with only an unrecognizable line, and a valid one-item act. -/
theorem empty_act_rejection_witness :
    parse_act " \n " = .error .emptyAct
    ∧ parse_act "#АКТ 01.01.2024 | Объект: X\nпросто текст" = .error .noItems
    ∧ parse_act "#АКТ 01.01.2024 | Объект: X\nУслуга 1 × 2" ≠ .error .emptyAct :=
  ⟨(empty_act_rejection " \n ").1 rfl,
   (empty_act_rejection "#АКТ 01.01.2024 | Объект: X\nпросто текст").2.1
     "#АКТ 01.01.2024 | Объект: X".data ["просто текст".data] "01.01.2024".data "X".data
     ⟨2024, 1, 1⟩ rfl rfl rfl rfl,
   ((empty_act_rejection "#АКТ 01.01.2024 | Объект: X\nУслуга 1 × 2").2.2
     "#АКТ 01.01.2024 | Объект: X".data ["Услуга 1 × 2".data] "01.01.2024".data "X".data
     ⟨2024, 1, 1⟩ ⟨"Услуга", ⟨1, 0⟩, "шт.", ⟨2, 0⟩⟩ [] rfl rfl rfl rfl).1⟩

/-- C8 (amended): every item returned by `_parse_item` — through any branch
of the cascade — has quantity and price strictly greater than zero (the
pydantic bounds); the non-empty-name part of the claim fails, see the
counterexample. -/
theorem item_positive_fields (line : String) (i : ActItem)
    (h : parseItem line = some i) : 0 < i.quantity.num ∧ 0 < i.price.num := by
  simp only [parseItem, parseItemL] at h
  cases h1 : itemCaps (normSpace line.data) with
  | some t =>
    rw [h1] at h
    obtain ⟨n, q, u, p⟩ := t
    exact canonicalBuild_pos h
  | none =>
    rw [h1] at h
    cases h2 : altCaps (normSpace line.data) with
    | some t =>
      rw [h2] at h
      obtain ⟨q, n, p⟩ := t
      exact altBuild_pos h
    | none =>
      rw [h2] at h
      cases h3 : alt3Caps (normSpace line.data) with
      | some t =>
        rw [h3] at h
        obtain ⟨n, q, p⟩ := t
        exact alt3Build_pos h
      | none =>
        rw [h3] at h
        cases h

/-- Witness for `item_positive_fields` at a concrete parsed line. -/
theorem item_positive_fields_witness :
    0 < (⟨"Услуга", ⟨1, 0⟩, "шт.", ⟨2, 0⟩⟩ : ActItem).quantity.num
    ∧ 0 < (⟨"Услуга", ⟨1, 0⟩, "шт.", ⟨2, 0⟩⟩ : ActItem).price.num :=
  item_positive_fields "Услуга 1 × 2" ⟨"Услуга", ⟨1, 0⟩, "шт.", ⟨2, 0⟩⟩ rfl

/-- C10: items with prices 1.004 and 1.006 are equal under the tolerance
`__eq__` but hash differently (1.00 vs 1.01 after rounding), so `parse_act`
retains both; and deduplication can only drop an element when some
previously kept item agrees on both the hash key and the tolerance
equality. -/
theorem tolerance_dedup_retains_both :
    parse_act "#АКТ 01.01.2024 | Объект: X\nA 1 шт. × 1.004\nA 1 шт. × 1.006"
      = .ok ⟨⟨2024, 1, 1⟩, "X",
          [⟨"A", ⟨1, 0⟩, "шт.", ⟨1004, 3⟩⟩, ⟨"A", ⟨1, 0⟩, "шт.", ⟨1006, 3⟩⟩]⟩
    ∧ itemBEq ⟨"A", ⟨1, 0⟩, "шт.", ⟨1004, 3⟩⟩ ⟨"A", ⟨1, 0⟩, "шт.", ⟨1006, 3⟩⟩ = true
    ∧ hashKey ⟨"A", ⟨1, 0⟩, "шт.", ⟨1004, 3⟩⟩ ≠ hashKey ⟨"A", ⟨1, 0⟩, "шт.", ⟨1006, 3⟩⟩
    ∧ ∀ seen x xs, dedupGo seen (x :: xs) ≠ x :: dedupGo (x :: seen) xs →
        ∃ y ∈ seen, dupB y x = true := by
  refine ⟨rfl, rfl, by decide, ?_⟩
  intro seen x xs hne
  by_cases hmem : inSeen x seen = true
  · simpa [inSeen, List.any_eq_true] using hmem
  · exfalso
    apply hne
    rw [Bool.not_eq_true] at hmem
    simp [dedupGo, hmem]

/-- Witness for `tolerance_dedup_retains_both`: an element is dropped only
over a hash-and-equality duplicate already kept. -/
theorem tolerance_dedup_retains_both_witness :
    ∃ y ∈ [(⟨"A", ⟨1, 0⟩, "шт.", ⟨1004, 3⟩⟩ : ActItem)],
      dupB y ⟨"A", ⟨1, 0⟩, "шт.", ⟨1004, 3⟩⟩ = true :=
  tolerance_dedup_retains_both.2.2.2
    [⟨"A", ⟨1, 0⟩, "шт.", ⟨1004, 3⟩⟩] ⟨"A", ⟨1, 0⟩, "шт.", ⟨1004, 3⟩⟩ [] (by decide)
